import Mathlib

/-!
# Verification of the Psyclinic AI core (src/main.py)

Shallow embedding of the algorithmic core of `src/main.py`:

* `count_tokens` — the token-count estimator (tiktoken primary path modelled
  as an abstract, possibly failing encoder; the deterministic fallback
  `len(text.split()) * 1.3` modelled exactly, with the float literal `1.3`
  taken as the rational `13/10`);
* `fit_to_token_limit` — the context-window trimming function, parametrised
  by the token counter `tc` (the tiktoken encoder is an external dependency,
  so all theorems quantify over the counter);
* the turn-validation checks of the `/chat` endpoint;
* the in-process fallback session store (`create_session`, `verify_session`,
  `logout`); the Redis branch performs the same `created_at` check after an
  external `GET` and is not separately modelled;
* `_invoke_bedrock_sync` / `_invoke_bedrock_claude` — error classification of
  the model-invocation layer, with the outcome of the external network call
  as an explicit parameter;
* the per-utterance retry loop and bulk improvement analysis of
  `generate_report`, with the model's per-attempt replies as an oracle.

Python primitives (`s[:n]`, `s.split()`, `s.strip()`, `s.upper()`,
`sub in s`) are modelled by structurally recursive functions on the
character list of the string, so that every definition evaluates on
concrete inputs.  `int(x)` on a positive value is `⌊x⌋`; `time.time()`
values are rationals.
-/

namespace Psyclinic

/-! ## Python string primitives (executable models) -/

/-- Python `s[:n]`: the first `n` characters of `s`. -/
def pyTake (s : String) (n : Nat) : String := ⟨s.data.take n⟩

/-- Python `s.strip()`: remove leading and trailing whitespace. -/
def pyStrip (s : String) : String :=
  ⟨((s.data.dropWhile Char.isWhitespace).reverse.dropWhile Char.isWhitespace).reverse⟩

/-- Python `s.split()` (no separator): maximal runs of non-whitespace
characters, in order; leading/trailing/repeated whitespace yields no empty
pieces.  `cur` is the reversed current word. -/
def pyWordsAux : List Char → List Char → List String
  | [], cur => if cur.isEmpty then [] else [⟨cur.reverse⟩]
  | c :: cs, cur =>
    if c.isWhitespace then
      if cur.isEmpty then pyWordsAux cs [] else ⟨cur.reverse⟩ :: pyWordsAux cs []
    else pyWordsAux cs (c :: cur)

/-- Python `text.split()`. -/
def pySplit (s : String) : List String := pyWordsAux s.data []

/-- Helper for `strContains`: does `pat` occur as a contiguous sublist? -/
def containsSub (pat : List Char) : List Char → Bool
  | [] => pat.isEmpty
  | c :: rest => pat.isPrefixOf (c :: rest) || containsSub pat rest

/-- Python `pat in s` (substring containment). -/
def strContains (s pat : String) : Bool := containsSub pat.data s.data

/-- Python `s.upper()` (ASCII). -/
def pyUpper (s : String) : String := ⟨s.data.map Char.toUpper⟩

/-- Python `s.lower()` (ASCII). -/
def pyLower (s : String) : String := ⟨s.data.map Char.toLower⟩

/-! ## Data model -/

/-- A chat message `{role, content}` as passed around in `main.py`.
Roles are the literal strings `"user"` (therapist) and `"assistant"`
(simulated patient). -/
structure Message where
  role : String
  content : String
deriving DecidableEq, Repr, Inhabited

/-- A raised `HTTPException(status_code, detail)`. -/
abbrev HErr := Nat × String

/-! ## TokenCounter (`count_tokens`, main.py lines 22–35) -/

/-- The fallback estimate `len(text.split()) * 1.3`, with the float literal
`1.3` modelled as the exact rational `13/10`.  Note the code returns this
product unrounded (it is *not* `ceil(word_count * 1.3)`), despite the
function's `-> int` annotation. -/
def count_tokens_fallback (text : String) : ℚ :=
  ((pySplit text).length : ℚ) * (13 / 10 : ℚ)

/-- Function `count_tokens`: the primary path calls the external tiktoken encoder
(`len(encoder.encode(text))`, a natural number); `encoder = none` models
tiktoken being unavailable and `encode text = none` models `encode`
raising.  Both failure paths use the fallback estimate. -/
def count_tokens (encoder : Option (String → Option Nat)) (text : String) : ℚ :=
  match encoder with
  | none => count_tokens_fallback text
  | some encode =>
    match encode text with
    | some n => (n : ℚ)
    | none => count_tokens_fallback text

/-! ## Constants (main.py lines 272–277) -/

def MAX_TOKENS_CHAT : ℚ := 500
def MAX_TOKENS_REPORT : ℚ := 10000
def MAX_TOKENS_IMPROVEMENT : ℚ := 1000
def MAX_TOTAL_TOKENS : ℚ := 10000

/-! ## ConversationWindow (`fit_to_token_limit`, main.py lines 321–345)

The token counter is abstract (`tc : String → ℚ`): with tiktoken present it
is `fun s => len(encoder.encode(s))`, otherwise the fallback estimate. -/

/-- The quantity `available = MAX_TOTAL_TOKENS - MAX_TOKENS_CHAT - system_tokens - 100`. -/
def availableTokens (tc : String → ℚ) (system_prompt : String) : ℚ :=
  MAX_TOTAL_TOKENS - MAX_TOKENS_CHAT - tc system_prompt - 100

/-- The `for msg in reversed(messages)` loop of `fit_to_token_limit`.
The input list is the reversed history (newest first), `total` the running
token total; the returned list is `kept` (newest first).  Mirrors the source
exactly: a message that would overflow is truncated to `int(available * 3.5)`
characters plus `"..."` when that length exceeds 50 (otherwise the loop
stops), the message is then appended unconditionally, and the loop stops
once `total > available`. -/
def fitLoop (tc : String → ℚ) (available : ℚ) : List Message → ℚ → List Message
  | [], _ => []
  | msg :: rest, total =>
    let msg_tokens := tc msg.content
    if total + msg_tokens > available then
      let max_chars : ℤ := ⌊available * (3.5 : ℚ)⌋
      if max_chars > 50 then
        let content' := pyTake msg.content max_chars.toNat ++ "..."
        let msg' : Message := ⟨msg.role, content'⟩
        let total' := total + tc content'
        if total' > available then [msg']
        else msg' :: fitLoop tc available rest total'
      else []
    else
      let total' := total + msg_tokens
      if total' > available then [msg]
      else msg :: fitLoop tc available rest total'

/-- Function `fit_to_token_limit(messages, system_prompt)`: raises
`HTTPException(500, "System prompt too long")` when `available < 500`,
otherwise walks the history newest-to-oldest and returns the kept messages
restored to chronological order. -/
def fit_to_token_limit (tc : String → ℚ) (messages : List Message)
    (system_prompt : String) : Except HErr (List Message) :=
  let available := availableTokens tc system_prompt
  if available < 500 then .error (500, "System prompt too long")
  else .ok ((fitLoop tc available messages.reverse 0).reverse)

/-- Total token cost of a message list under counter `tc`. -/
def totalCost (tc : String → ℚ) (l : List Message) : ℚ :=
  (l.map (fun m => tc m.content)).sum

/-- Relation: `m'` is either `m` unchanged, or `m` with its content sliced to
`int(available * 3.5)` characters and an ellipsis appended (the truncation
`fit_to_token_limit` performs). -/
def eqOrTrunc (available : ℚ) (m m' : Message) : Prop :=
  m' = m ∨
    (m'.role = m.role ∧
      m'.content = pyTake m.content (Int.toNat ⌊available * (3.5 : ℚ)⌋) ++ "...")

instance (available : ℚ) (m m' : Message) : Decidable (eqOrTrunc available m m') := by
  unfold eqOrTrunc; infer_instance

/-! ## TurnValidator (the `/chat` endpoint, main.py lines 1080–1096)

`chat` first cleans the caller-supplied history (strip each content, drop
messages whose content is empty or whitespace-only), then checks, in order:
empty history, two adjacent messages with the same role, and the final
message's role not being `"user"`.  Each check raises a distinct
`HTTPException(400, ...)`. -/

/-- The list comprehension
`[{role, content.strip()} for m in history if m.content and m.content.strip()]`.
(`m.content and m.content.strip()` is truthy iff the stripped content is
non-empty, since `"".strip() = ""`.) -/
def cleanMessages (history : List Message) : List Message :=
  (history.filter (fun m => pyStrip m.content ≠ "")).map
    (fun m => ⟨m.role, pyStrip m.content⟩)

/-- The `for i in range(1, len(messages))` adjacent-role scan. -/
def hasConsecutiveSameRole : List Message → Bool
  | [] => false
  | [_] => false
  | a :: b :: rest => a.role == b.role || hasConsecutiveSameRole (b :: rest)

/-- Check `messages[-1]["role"] != "user"` (the empty case cannot be reached,
since the empty check comes first). -/
def lastRoleNotUser (messages : List Message) : Bool :=
  match messages.getLast? with
  | some m => m.role != "user"
  | none => false

/-- The three turn-validation checks of `chat`, in source order with the
first violation winning. -/
def validateTurns (messages : List Message) : Except HErr Unit :=
  if messages.isEmpty then .error (400, "Empty history")
  else if hasConsecutiveSameRole messages then .error (400, "Wait for patient reply")
  else if lastRoleNotUser messages then .error (400, "Therapist must speak last")
  else .ok ()

/-- The validation pipeline of `chat`: clean, then validate. -/
def chatValidate (history : List Message) : Except HErr Unit :=
  validateTurns (cleanMessages history)

/-! ## SessionStore (main.py lines 139–176, 256–265)

The in-process fallback backend (`redis_client = None`): `active_sessions`
is a dict from token to `{email, created_at}`, modelled as a function
`String → Option SessionData`.  `time.time()` values are rationals.  The
session token itself is produced by hashing the email, the clock and
16 random bytes — an opaque external value, so it is a parameter here. -/

structure SessionData where
  email : String
  created_at : ℚ
deriving DecidableEq

/-- The `active_sessions` dict. -/
abbrev SessionStore := String → Option SessionData

def storeSet (st : SessionStore) (k : String) (v : SessionData) : SessionStore :=
  fun k' => if k' = k then some v else st k'

def storeDel (st : SessionStore) (k : String) : SessionStore :=
  fun k' => if k' = k then none else st k'

/-- Function `create_session(email)`: store `{email, created_at: now}` under the
(externally generated) token and return the token. -/
def create_session (st : SessionStore) (email : String) (session_token : String)
    (now : ℚ) : String × SessionStore :=
  (session_token, storeSet st session_token ⟨email, now⟩)

/-- Function `verify_session(session_token)` on the in-memory backend: `None`/empty
tokens are rejected (`if not session_token`), unknown tokens give `None`,
an entry older than 86400 seconds is deleted lazily and gives `None`,
otherwise the stored email is returned.  The pair carries the (possibly
mutated) store. -/
def verify_session (st : SessionStore) (now : ℚ) (session_token : Option String) :
    Option String × SessionStore :=
  match session_token with
  | none => (none, st)
  | some tok =>
    if tok = "" then (none, st)
    else
      match st tok with
      | none => (none, st)
      | some session =>
        if now - session.created_at > 86400 then (none, storeDel st tok)
        else (some session.email, st)

/-- The session-deleting part of the `/api/logout` handler (in-memory
branch): `del active_sessions[session_token]` when the cookie is present
and known. -/
def logout (st : SessionStore) (session_token : Option String) : SessionStore :=
  match session_token with
  | none => st
  | some tok => if (st tok).isSome then storeDel st tok else st

/-! ## ModelInvoker (`_invoke_bedrock_sync` / `_invoke_bedrock_claude`,
main.py lines 348–384)

The network call is external; its outcome is a parameter: a parsed
response content list, a `botocore.ClientError` with an error code, or any
other exception. -/

/-- One block of the parsed response's `content` array. -/
structure ContentBlock where
  type : String
  text : String
deriving DecidableEq

/-- Outcome of `bedrock_client.invoke_model` plus response parsing. -/
inductive BedrockOutcome
  | ok (content : List ContentBlock)
  | clientError (code : String)
  | exn (msg : String)
deriving DecidableEq

/-- Function `_invoke_bedrock_sync`: extract the first text block on success
(`raise Exception("No text in response")` otherwise, caught by the generic
handler); map `ThrottlingException` to 429, other `ClientError`s to
`500 "Bedrock error: <code>"`, and any other exception to
`500 "Call failed: <e>"`. -/
def invoke_bedrock_sync (outcome : BedrockOutcome) : Except HErr String :=
  match outcome with
  | .ok content =>
    match content with
    | b :: _ =>
      if b.type = "text" then .ok b.text
      else .error (500, "Call failed: No text in response")
    | [] => .error (500, "Call failed: No text in response")
  | .clientError code =>
    if code = "ThrottlingException" then .error (429, "Rate limit. Wait 10s.")
    else .error (500, "Bedrock error: " ++ code)
  | .exn msg => .error (500, "Call failed: " ++ msg)

/-- Function `_invoke_bedrock_claude`: fail fast with `500 "Bedrock not ready"` when
the client is absent, otherwise run the synchronous call (the executor
offload does not change the result). -/
def invoke_bedrock_claude (bedrock_client : Option Unit) (outcome : BedrockOutcome) :
    Except HErr String :=
  match bedrock_client with
  | none => .error (500, "Bedrock not ready")
  | some _ => invoke_bedrock_sync outcome

/-! ## RetryOrchestrator / bulk analysis (`generate_report`, main.py
lines 1114–1205)

Each qualifying (user-role) utterance is analysed by up to
`max_retries = 3` attempts of `_invoke_bedrock_claude`; the reply to a
given prompt is external, so the per-attempt result is an oracle
`call : ℕ → Except HErr String`.  All failures of the call surface as
`HTTPException`s (see `invoke_bedrock_claude`), so the broad
`except Exception` clause of the retry loop is unreachable and only the
`HTTPException` clause is modelled.  `str(HTTPException(c, d))` is
`"<c>: <d>"` (starlette), and `str` of a plain `Exception` is its
message. -/

def max_retries : Nat := 3

/-- Python `str(e)` for a raised `HTTPException`. -/
def errStr (e : HErr) : String := toString e.1 ++ ": " ++ e.2

/-- The improvement record appended per analysed utterance. -/
structure ImprovementRecord where
  therapist_message : String
  patient_response : String
  improvement : String
  needs_improvement : Bool
deriving DecidableEq, Repr

/-- The fallback message built in the outer `except` handler from
`error_msg = str(e)`. -/
def fallbackText (error_msg : String) : String :=
  let base := "Unable to generate detailed analysis at this time. "
  if strContains (pyLower error_msg) "rate limit" || strContains error_msg "429" then
    base ++ "The AI service is currently busy. This response will be analyzed in the summary above."
  else if strContains (pyLower error_msg) "timeout" then
    base ++ "The analysis request timed out. Your overall performance is covered in the main report."
  else
    base ++ "Please refer to the overall evaluation above for guidance on this exchange."

/-- Python `"NEEDS_IMPROVEMENT" in improvement.upper()`. -/
def needsFlag (improvement : String) : Bool :=
  strContains (pyUpper improvement) "NEEDS_IMPROVEMENT"

/-- The `for attempt in range(max_retries)` loop.  The first component is
`none` if the loop ran out of attempts with `improvement` still `None`,
`some (.ok t)` on a `break` after a successful call, and `some (.error e)`
for an exception `raise`d out of the loop.  The second component lists the
`asyncio.sleep(retry_delay)` waits performed, in seconds (`retry_delay`
starts at 1 and doubles after each retried attempt). -/
def retryAttempts (call : Nat → Except HErr String) :
    List Nat → Nat → Option (Except HErr String) × List Nat
  | [], _ => (none, [])
  | attempt :: rest, retry_delay =>
    match call attempt with
    | .ok text => (some (.ok text), [])
    | .error e =>
      if e.1 = 429 ∧ attempt < max_retries - 1 then
        let next := retryAttempts call rest (retry_delay * 2)
        (next.1, retry_delay :: next.2)
      else (some (.error e), [])

/-- Analysis of a single therapist utterance: run the retry loop, then
either keep the successful reply (`if improvement:` — note this treats an
*empty* successful reply like a failure, `raise Exception("Failed after
all retries")`), or build the fallback record with
`needs_improvement = False`.  Returns the record and the retry waits. -/
def analyzeUtterance (call : Nat → Except HErr String)
    (therapist_message patient_response : String) : ImprovementRecord × List Nat :=
  match retryAttempts call (List.range max_retries) 1 with
  | (some (.ok improvement), waits) =>
    if improvement ≠ "" then
      (⟨therapist_message, patient_response, improvement, needsFlag improvement⟩, waits)
    else
      (⟨therapist_message, patient_response,
        fallbackText "Failed after all retries", false⟩, waits)
  | (some (.error e), waits) =>
    (⟨therapist_message, patient_response, fallbackText (errStr e), false⟩, waits)
  | (none, waits) =>
    (⟨therapist_message, patient_response,
      fallbackText "Failed after all retries", false⟩, waits)

/-- Value `patient_response` for the utterance at index `i`: the next message's
content when it exists and has the assistant role, else `""`. -/
def patientResponse (chat_history : List Message) (i : Nat) : String :=
  match chat_history.get? (i + 1) with
  | some m => if m.role = "assistant" then m.content else ""
  | none => ""

/-- The `for i in range(len(chat_history))` loop of `generate_report`,
walking the indexed history: a record is appended exactly for the messages
with role `"user"`. -/
def genLoop (invoke : Nat → Nat → Except HErr String) (chat_history : List Message) :
    List (Nat × Message) → List ImprovementRecord
  | [] => []
  | (i, msg) :: rest =>
    if msg.role = "user" then
      (analyzeUtterance (invoke i) msg.content (patientResponse chat_history i)).1 ::
        genLoop invoke chat_history rest
    else genLoop invoke chat_history rest

/-- The improvement-generation part of `generate_report`: one record per
message with role `"user"`, in order.  `invoke i attempt` is the outcome of
the model call for message `i` on the given attempt (the prompt fed to the
model is a pure function of the history, so indexing the oracle by `i`
loses nothing). -/
def generateImprovements (invoke : Nat → Nat → Except HErr String)
    (chat_history : List Message) : List ImprovementRecord :=
  genLoop invoke chat_history chat_history.enum

/-! ## Lemmas about `fit_to_token_limit` -/

theorem fitLoop_nil (tc : String → ℚ) (a t : ℚ) : fitLoop tc a [] t = [] := rfl

/-- Branch: the message fits (`total + msg_tokens ≤ available`); it is kept
unchanged and the loop continues (the post-append stop test cannot fire
here). -/
theorem fitLoop_keep (tc : String → ℚ) (a : ℚ) (m : Message) (rest : List Message)
    (t : ℚ) (h : ¬ t + tc m.content > a) :
    fitLoop tc a (m :: rest) t = m :: fitLoop tc a rest (t + tc m.content) := by
  simp only [fitLoop]
  rw [if_neg h, if_neg h]

/-- Branch: overflow, truncation allowed, and the truncated message still
fits; it is kept and the loop continues. -/
theorem fitLoop_trunc_continue (tc : String → ℚ) (a : ℚ) (m : Message)
    (rest : List Message) (t : ℚ)
    (h1 : t + tc m.content > a) (h2 : (⌊a * (3.5 : ℚ)⌋ : ℤ) > 50)
    (h3 : ¬ t + tc (pyTake m.content (⌊a * (3.5 : ℚ)⌋).toNat ++ "...") > a) :
    fitLoop tc a (m :: rest) t =
      ⟨m.role, pyTake m.content (⌊a * (3.5 : ℚ)⌋).toNat ++ "..."⟩ ::
        fitLoop tc a rest (t + tc (pyTake m.content (⌊a * (3.5 : ℚ)⌋).toNat ++ "...")) := by
  simp only [fitLoop]
  rw [if_pos h1, if_pos h2, if_neg h3]

/-- Branch: overflow, truncation allowed, but the truncated message pushes
the total past `available`; it is *still kept* and the loop stops. -/
theorem fitLoop_trunc_break (tc : String → ℚ) (a : ℚ) (m : Message)
    (rest : List Message) (t : ℚ)
    (h1 : t + tc m.content > a) (h2 : (⌊a * (3.5 : ℚ)⌋ : ℤ) > 50)
    (h3 : t + tc (pyTake m.content (⌊a * (3.5 : ℚ)⌋).toNat ++ "...") > a) :
    fitLoop tc a (m :: rest) t =
      [⟨m.role, pyTake m.content (⌊a * (3.5 : ℚ)⌋).toNat ++ "..."⟩] := by
  simp only [fitLoop]
  rw [if_pos h1, if_pos h2, if_pos h3]

/-- Branch: overflow and `max_chars ≤ 50`; the message is dropped and the
loop stops. -/
theorem fitLoop_stop (tc : String → ℚ) (a : ℚ) (m : Message)
    (rest : List Message) (t : ℚ)
    (h1 : t + tc m.content > a) (h2 : ¬ (⌊a * (3.5 : ℚ)⌋ : ℤ) > 50) :
    fitLoop tc a (m :: rest) t = [] := by
  simp only [fitLoop]
  rw [if_pos h1, if_neg h2]

theorem totalCost_nil (tc : String → ℚ) : totalCost tc [] = 0 := rfl

theorem totalCost_cons (tc : String → ℚ) (m : Message) (l : List Message) :
    totalCost tc (m :: l) = tc m.content + totalCost tc l := by
  simp [totalCost]

theorem totalCost_nonneg (tc : String → ℚ) (htc : ∀ s, 0 ≤ tc s) (l : List Message) :
    0 ≤ totalCost tc l := by
  refine List.sum_nonneg ?_
  intro x hx
  obtain ⟨m, -, rfl⟩ := List.mem_map.mp hx
  exact htc m.content

theorem totalCost_reverse (tc : String → ℚ) (l : List Message) :
    totalCost tc l.reverse = totalCost tc l := by
  simp only [totalCost, List.map_reverse]
  exact List.sum_reverse _

/-- If everything fits under the budget, the loop keeps the whole list
untouched. -/
theorem fitLoop_of_fits (tc : String → ℚ) (a : ℚ) (htc : ∀ s, 0 ≤ tc s) :
    ∀ (l : List Message) (t : ℚ), t + totalCost tc l ≤ a → fitLoop tc a l t = l := by
  intro l
  induction l with
  | nil => intro t _; rfl
  | cons m rest ih =>
    intro t h
    rw [totalCost_cons] at h
    have hr : 0 ≤ totalCost tc rest := totalCost_nonneg tc htc rest
    have hm : ¬ t + tc m.content > a := by push_neg; linarith
    rw [fitLoop_keep tc a m rest t hm, ih (t + tc m.content) (by linarith)]

/-- The loop keeps a prefix of its (reversed) input, each message either
unchanged or truncated. -/
theorem fitLoop_suffix (tc : String → ℚ) (a : ℚ) :
    ∀ (l : List Message) (t : ℚ), ∃ l₁ l₂, l = l₁ ++ l₂ ∧
      List.Forall₂ (eqOrTrunc a) l₁ (fitLoop tc a l t) := by
  intro l
  induction l with
  | nil => exact fun t => ⟨[], [], rfl, List.Forall₂.nil⟩
  | cons m rest ih =>
    intro t
    by_cases h1 : t + tc m.content > a
    · by_cases h2 : (⌊a * (3.5 : ℚ)⌋ : ℤ) > 50
      · by_cases h3 : t + tc (pyTake m.content (⌊a * (3.5 : ℚ)⌋).toNat ++ "...") > a
        · rw [fitLoop_trunc_break tc a m rest t h1 h2 h3]
          exact ⟨[m], rest, rfl, .cons (Or.inr ⟨rfl, rfl⟩) .nil⟩
        · rw [fitLoop_trunc_continue tc a m rest t h1 h2 h3]
          obtain ⟨l₁, l₂, heq, hrel⟩ := ih _
          exact ⟨m :: l₁, l₂, by rw [List.cons_append, ← heq], .cons (Or.inr ⟨rfl, rfl⟩) hrel⟩
      · rw [fitLoop_stop tc a m rest t h1 h2]
        exact ⟨[], m :: rest, rfl, .nil⟩
    · rw [fitLoop_keep tc a m rest t h1]
      obtain ⟨l₁, l₂, heq, hrel⟩ := ih _
      exact ⟨m :: l₁, l₂, by rw [List.cons_append, ← heq], .cons (Or.inl rfl) hrel⟩

/-- Cost invariant: every kept message except the last one appended (the
oldest kept) stays within `available`. -/
theorem fitLoop_cost (tc : String → ℚ) (a : ℚ) :
    ∀ (l : List Message) (t : ℚ), t ≤ a →
      totalCost tc (fitLoop tc a l t).dropLast + t ≤ a := by
  intro l
  induction l with
  | nil => intro t h; simpa [fitLoop_nil, totalCost] using h
  | cons m rest ih =>
    intro t h
    by_cases h1 : t + tc m.content > a
    · by_cases h2 : (⌊a * (3.5 : ℚ)⌋ : ℤ) > 50
      · by_cases h3 : t + tc (pyTake m.content (⌊a * (3.5 : ℚ)⌋).toNat ++ "...") > a
        · rw [fitLoop_trunc_break tc a m rest t h1 h2 h3]
          simpa [totalCost] using h
        · rw [fitLoop_trunc_continue tc a m rest t h1 h2 h3]
          push_neg at h3
          rcases hr : fitLoop tc a rest (t + tc (pyTake m.content (⌊a * (3.5 : ℚ)⌋).toNat ++ "...")) with - | ⟨y, ys⟩
          · simpa [totalCost] using h
          · rw [List.dropLast_cons_of_ne_nil (by simp), totalCost_cons]
            have := ih (t + tc (pyTake m.content (⌊a * (3.5 : ℚ)⌋).toNat ++ "...")) h3
            rw [hr] at this
            linarith
      · rw [fitLoop_stop tc a m rest t h1 h2]
        simpa [totalCost] using h
    · rw [fitLoop_keep tc a m rest t h1]
      push_neg at h1
      rcases hr : fitLoop tc a rest (t + tc m.content) with - | ⟨y, ys⟩
      · simpa [totalCost] using h
      · rw [List.dropLast_cons_of_ne_nil (by simp), totalCost_cons]
        have := ih (t + tc m.content) h1
        rw [hr] at this
        linarith

/-- When truncation is allowed (`max_chars > 50`), the first (newest)
message is always kept, at worst truncated. -/
theorem fitLoop_head (tc : String → ℚ) (a : ℚ) (m : Message) (rest : List Message)
    (t : ℚ) (h2 : (⌊a * (3.5 : ℚ)⌋ : ℤ) > 50) :
    ∃ m' r, fitLoop tc a (m :: rest) t = m' :: r ∧ eqOrTrunc a m m' := by
  by_cases h1 : t + tc m.content > a
  · by_cases h3 : t + tc (pyTake m.content (⌊a * (3.5 : ℚ)⌋).toNat ++ "...") > a
    · exact ⟨_, _, fitLoop_trunc_break tc a m rest t h1 h2 h3, Or.inr ⟨rfl, rfl⟩⟩
    · exact ⟨_, _, fitLoop_trunc_continue tc a m rest t h1 h2 h3, Or.inr ⟨rfl, rfl⟩⟩
  · exact ⟨_, _, fitLoop_keep tc a m rest t h1, Or.inl rfl⟩

/-- Unpacking a successful `fit_to_token_limit` run. -/
theorem fit_eq_ok (tc : String → ℚ) (messages : List Message) (system_prompt : String)
    (out : List Message) (h : fit_to_token_limit tc messages system_prompt = .ok out) :
    500 ≤ availableTokens tc system_prompt ∧
      out = (fitLoop tc (availableTokens tc system_prompt) messages.reverse 0).reverse := by
  by_cases hlt : availableTokens tc system_prompt < 500
  · rw [fit_to_token_limit] at h
    simp only [if_pos hlt] at h
    cases h
  · refine ⟨not_lt.mp hlt, ?_⟩
    rw [fit_to_token_limit] at h
    simp only [if_neg hlt, Except.ok.injEq] at h
    exact h.symm

/-- A run whose messages all fit returns the input unchanged (shared by the
below-budget and idempotence claims). -/
theorem fit_fits_eq (tc : String → ℚ) (messages : List Message) (system_prompt : String)
    (htc : ∀ s, 0 ≤ tc s) (h500 : 500 ≤ availableTokens tc system_prompt)
    (hfits : totalCost tc messages ≤ availableTokens tc system_prompt) :
    fit_to_token_limit tc messages system_prompt = .ok messages := by
  rw [fit_to_token_limit]
  rw [if_neg (not_lt.mpr h500)]
  rw [fitLoop_of_fits tc _ htc messages.reverse 0
        (by rw [totalCost_reverse]; linarith)]
  rw [List.reverse_reverse]

theorem drop_one_reverse {α : Type} (l : List α) :
    l.reverse.drop 1 = l.dropLast.reverse := by
  rcases List.eq_nil_or_concat l with rfl | ⟨l', x, rfl⟩
  · simp
  · simp

theorem floor_35_ge (a : ℚ) (h : 500 ≤ a) : (1750 : ℤ) ≤ ⌊a * (3.5 : ℚ)⌋ := by
  rw [Int.le_floor]
  push_cast
  linarith

/-! ## Concrete token counters for witnesses and counterexamples

The tiktoken encoder is an arbitrary external function, so a concrete
counter stands for the encoder's values on the handful of strings a
scenario involves; any nonnegative values are realisable. -/

/-- A counter under which the system prompt `"P"` leaves `available = 500`
and both history messages overflow, with their truncations costing 400
each. -/
def tcEx : String → ℚ := fun s =>
  if s = "P" then 8900
  else if s = "A" then 600
  else if s = "B" then 600
  else if s = "A..." then 400
  else if s = "B..." then 400
  else 0

/-- A counter for the below-budget counterexample: prompt `"S"` costs 50,
the single message 9360 (so prompt + messages + reply reserve = 9910 ≤
10000, yet 9360 exceeds `available = 9350`). -/
def tcC3 : String → ℚ := fun s =>
  if s = "S" then 50
  else if s = "M" then 9360
  else if s = "M..." then 9000
  else 0

/-- The all-zero counter (everything fits). -/
def tcZero : String → ℚ := fun _ => 0

theorem tcEx_nonneg : ∀ s, 0 ≤ tcEx s := by
  intro s
  unfold tcEx
  split_ifs <;> norm_num

theorem tcC3_nonneg : ∀ s, 0 ≤ tcC3 s := by
  intro s
  unfold tcC3
  split_ifs <;> norm_num

theorem avail_tcEx : availableTokens tcEx "P" = 500 := by
  simp [availableTokens, tcEx, MAX_TOTAL_TOKENS, MAX_TOKENS_CHAT]
  norm_num

theorem avail_tcC3 : availableTokens tcC3 "S" = 9350 := by
  simp [availableTokens, tcC3, MAX_TOTAL_TOKENS, MAX_TOKENS_CHAT]
  norm_num

theorem avail_tcZero (sp : String) : availableTokens tcZero sp = 9400 := by
  simp [availableTokens, tcZero, MAX_TOTAL_TOKENS, MAX_TOKENS_CHAT]
  norm_num

theorem floor_500 : (⌊(500 : ℚ) * (3.5 : ℚ)⌋ : ℤ) = 1750 := by
  have h : (500 : ℚ) * (3.5 : ℚ) = ((1750 : ℤ) : ℚ) := by norm_num
  rw [h, Int.floor_intCast]

theorem floor_9350 : (⌊(9350 : ℚ) * (3.5 : ℚ)⌋ : ℤ) = 32725 := by
  have h : (9350 : ℚ) * (3.5 : ℚ) = ((32725 : ℤ) : ℚ) := by norm_num
  rw [h, Int.floor_intCast]

/-- Concrete run: with `tcEx`, the history `[A, B]` (total cost 1200 over
`available = 500`) comes back with *both* messages truncated, at total
cost 800 — still over `available`. -/
theorem fit_tcEx_first :
    fit_to_token_limit tcEx [⟨"user", "A"⟩, ⟨"assistant", "B"⟩] "P" =
      .ok [⟨"user", "A..."⟩, ⟨"assistant", "B..."⟩] := by
  have hb : pyTake "B" (1750 : ℤ).toNat ++ "..." = "B..." := by decide
  have hA : pyTake "A" (1750 : ℤ).toNat ++ "..." = "A..." := by decide
  rw [fit_to_token_limit, avail_tcEx]
  rw [if_neg (by norm_num)]
  congr 1
  show (fitLoop tcEx 500 [⟨"assistant", "B"⟩, ⟨"user", "A"⟩] 0).reverse = _
  rw [fitLoop_trunc_continue tcEx 500 ⟨"assistant", "B"⟩ _ 0
        (by simp [tcEx]; norm_num) (by rw [floor_500]; norm_num)
        (by rw [floor_500]; simp only [hb]; simp [tcEx]; norm_num)]
  rw [floor_500]
  simp only [hb]
  rw [fitLoop_trunc_break tcEx 500 ⟨"user", "A"⟩ _ _
        (by simp [tcEx]; norm_num) (by rw [floor_500]; norm_num)
        (by rw [floor_500]; simp only [hA]; simp [tcEx]; norm_num)]
  rw [floor_500]
  simp [tcEx]
  decide

/-- Concrete run: applying `fit_to_token_limit` to the output of
`fit_tcEx_first` truncates the oldest message a second time. -/
theorem fit_tcEx_second :
    fit_to_token_limit tcEx [⟨"user", "A..."⟩, ⟨"assistant", "B..."⟩] "P" =
      .ok [⟨"user", "A......"⟩, ⟨"assistant", "B..."⟩] := by
  have hA : pyTake "A..." (1750 : ℤ).toNat ++ "..." = "A......" := by decide
  rw [fit_to_token_limit, avail_tcEx]
  rw [if_neg (by norm_num)]
  congr 1
  show (fitLoop tcEx 500 [⟨"assistant", "B..."⟩, ⟨"user", "A..."⟩] 0).reverse = _
  rw [fitLoop_keep tcEx 500 ⟨"assistant", "B..."⟩ _ 0
        (by simp [tcEx]; norm_num)]
  rw [fitLoop_trunc_continue tcEx 500 ⟨"user", "A..."⟩ _ _
        (by simp [tcEx]; norm_num) (by rw [floor_500]; norm_num)
        (by rw [floor_500]; simp only [hA]; simp [tcEx]; norm_num)]
  rw [floor_500]
  simp only [hA, fitLoop_nil]
  decide

/-- Concrete run for the below-budget counterexample: the single message
is truncated although prompt + messages + reserve fit the total budget. -/
theorem fit_tcC3_eval :
    fit_to_token_limit tcC3 [⟨"user", "M"⟩] "S" = .ok [⟨"user", "M..."⟩] := by
  have hM : pyTake "M" (32725 : ℤ).toNat ++ "..." = "M..." := by decide
  rw [fit_to_token_limit, avail_tcC3]
  rw [if_neg (by norm_num)]
  congr 1
  show (fitLoop tcC3 9350 [⟨"user", "M"⟩] 0).reverse = _
  rw [fitLoop_trunc_continue tcC3 9350 ⟨"user", "M"⟩ _ 0
        (by simp [tcC3]; norm_num) (by rw [floor_9350]; norm_num)
        (by rw [floor_9350]; simp only [hM]; simp [tcC3]; norm_num)]
  rw [floor_9350]
  simp only [hM, fitLoop_nil]
  decide

/-- Concrete run: under the all-zero counter a singleton history is
returned unchanged. -/
theorem fit_tcZero_eval (m : Message) :
    fit_to_token_limit tcZero [m] "" = .ok [m] := by
  refine fit_fits_eq tcZero [m] "" (fun _ => le_refl 0) ?_ ?_
  · rw [avail_tcZero]; norm_num
  · rw [avail_tcZero]; simp [totalCost, tcZero]

/-! ## Claims C1, C3, C9, C10 -/

/-- Claim C1 (amended): for every run of `fit_to_token_limit` that passes the
configuration check, on a history whose total cost exceeds `available`, the
output is a chronological suffix of the input in which each kept message is
either unchanged or truncated (content sliced to `int(available*3.5)`
characters plus an ellipsis) — possibly more than one of them, not only the
oldest kept — no message is dropped from the middle while a newer one is
kept, and the total token cost of the output *excluding its oldest message*
is at most `available` (the oldest kept message may push the total past
`available`; see `c1_counterexample`). -/
theorem c1_over_budget_suffix (tc : String → ℚ) (messages : List Message)
    (system_prompt : String) (out : List Message)
    (h : fit_to_token_limit tc messages system_prompt = .ok out)
    (hover : availableTokens tc system_prompt < totalCost tc messages) :
    (∃ dropped kept, messages = dropped ++ kept ∧
        List.Forall₂ (eqOrTrunc (availableTokens tc system_prompt)) kept out)
    ∧ totalCost tc (out.drop 1) ≤ availableTokens tc system_prompt := by
  obtain ⟨h500, hout⟩ := fit_eq_ok tc messages system_prompt out h
  constructor
  · obtain ⟨l₁, l₂, heq, hrel⟩ := fitLoop_suffix tc _ messages.reverse 0
    refine ⟨l₂.reverse, l₁.reverse, ?_, ?_⟩
    · conv_lhs => rw [← List.reverse_reverse messages]
      rw [heq, List.reverse_append]
    · rw [hout]
      exact List.rel_reverse hrel
  · rw [hout, drop_one_reverse, totalCost_reverse]
    have := fitLoop_cost tc (availableTokens tc system_prompt) messages.reverse 0
      (by linarith)
    linarith

/-- Witness for `c1_over_budget_suffix` at the concrete `tcEx` scenario. -/
theorem c1_over_budget_suffix_witness :
    (∃ dropped kept,
        ([⟨"user", "A"⟩, ⟨"assistant", "B"⟩] : List Message) = dropped ++ kept ∧
        List.Forall₂ (eqOrTrunc (availableTokens tcEx "P")) kept
          [⟨"user", "A..."⟩, ⟨"assistant", "B..."⟩])
    ∧ totalCost tcEx (([⟨"user", "A..."⟩, ⟨"assistant", "B..."⟩] : List Message).drop 1)
        ≤ availableTokens tcEx "P" :=
  c1_over_budget_suffix tcEx _ "P" _ fit_tcEx_first
    (by rw [avail_tcEx]; simp [totalCost, tcEx]; norm_num)

/-- Claim C1 counterexample: with `available = 500` and input total cost 1200,
the output has total cost 800 > `available` (refuting "the output's total
token cost is at most `available`"), and *both* returned messages differ
from their originals (refuting "at most one boundary (oldest kept) message
has been truncated"). -/
theorem c1_counterexample :
    500 ≤ availableTokens tcEx "P"
    ∧ availableTokens tcEx "P" <
        totalCost tcEx [⟨"user", "A"⟩, ⟨"assistant", "B"⟩]
    ∧ fit_to_token_limit tcEx [⟨"user", "A"⟩, ⟨"assistant", "B"⟩] "P" =
        .ok [⟨"user", "A..."⟩, ⟨"assistant", "B..."⟩]
    ∧ availableTokens tcEx "P" <
        totalCost tcEx [⟨"user", "A..."⟩, ⟨"assistant", "B..."⟩]
    ∧ (⟨"user", "A..."⟩ : Message) ≠ ⟨"user", "A"⟩
    ∧ (⟨"assistant", "B..."⟩ : Message) ≠ ⟨"assistant", "B"⟩ := by
  refine ⟨?_, ?_, fit_tcEx_first, ?_, by decide, by decide⟩
  · rw [avail_tcEx]
  · rw [avail_tcEx]; simp [totalCost, tcEx]; norm_num
  · rw [avail_tcEx]; simp [totalCost, tcEx]; norm_num

/-- Claim C3 (amended): if the messages' total token cost is at most
`available` (equivalently, system prompt + messages + reply reserve *plus
the 100-token safety margin* fit the total budget) and the configuration
check passes, the input is returned unchanged.  The claim's weaker bound
"prompt + messages + reserve ≤ budget" is not sufficient — see
`c3_counterexample`. -/
theorem c3_below_budget_unchanged (tc : String → ℚ) (messages : List Message)
    (system_prompt : String) (htc : ∀ s, 0 ≤ tc s)
    (h500 : 500 ≤ availableTokens tc system_prompt)
    (hfits : totalCost tc messages ≤ availableTokens tc system_prompt) :
    fit_to_token_limit tc messages system_prompt = .ok messages :=
  fit_fits_eq tc messages system_prompt htc h500 hfits

/-- Witness for `c3_below_budget_unchanged`. -/
theorem c3_below_budget_unchanged_witness :
    fit_to_token_limit tcZero [⟨"user", "hi"⟩] "" = .ok [⟨"user", "hi"⟩] :=
  c3_below_budget_unchanged tcZero [⟨"user", "hi"⟩] "" (fun _ => le_refl 0)
    (by rw [avail_tcZero]; norm_num)
    (by rw [avail_tcZero]; simp [totalCost, tcZero])

/-- Claim C3 counterexample: prompt cost 50, one message of cost 9360 and the
500-token reply reserve total 9910 ≤ 10000 = `MAX_TOTAL_TOKENS`, and the
configuration check passes, yet the message is truncated (the code compares
against `available = 9350`, which subtracts a further 100-token safety
margin). -/
theorem c3_counterexample :
    tcC3 "S" + totalCost tcC3 [⟨"user", "M"⟩] + MAX_TOKENS_CHAT ≤ MAX_TOTAL_TOKENS
    ∧ 500 ≤ availableTokens tcC3 "S"
    ∧ fit_to_token_limit tcC3 [⟨"user", "M"⟩] "S" = .ok [⟨"user", "M..."⟩]
    ∧ ([⟨"user", "M..."⟩] : List Message) ≠ [⟨"user", "M"⟩] := by
  refine ⟨?_, ?_, fit_tcC3_eval, by decide⟩
  · simp [totalCost, tcC3, MAX_TOKENS_CHAT, MAX_TOTAL_TOKENS]; norm_num
  · rw [avail_tcC3]; norm_num

/-- Claim C9 (amended): `fit_to_token_limit` is idempotent on outputs whose
total token cost is at most `available`; without that bound a second
application can truncate the oldest kept message again (see
`c9_counterexample`). -/
theorem c9_idempotent_of_fits (tc : String → ℚ) (messages : List Message)
    (system_prompt : String) (out : List Message) (htc : ∀ s, 0 ≤ tc s)
    (h : fit_to_token_limit tc messages system_prompt = .ok out)
    (hfits : totalCost tc out ≤ availableTokens tc system_prompt) :
    fit_to_token_limit tc out system_prompt = .ok out := by
  obtain ⟨h500, -⟩ := fit_eq_ok tc messages system_prompt out h
  exact fit_fits_eq tc out system_prompt htc h500 hfits

/-- Witness for `c9_idempotent_of_fits`. -/
theorem c9_idempotent_of_fits_witness :
    fit_to_token_limit tcZero [⟨"user", "hello"⟩] "" = .ok [⟨"user", "hello"⟩] :=
  c9_idempotent_of_fits tcZero [⟨"user", "hello"⟩] "" [⟨"user", "hello"⟩]
    (fun _ => le_refl 0) (fit_tcZero_eval _)
    (by rw [avail_tcZero]; simp [totalCost, tcZero])

/-- Claim C9 counterexample: a successful run whose output, fed back in with
the same system prompt, comes back *different* (the oldest message is
truncated a second time, `"A..."` becoming `"A......"`). -/
theorem c9_counterexample :
    fit_to_token_limit tcEx [⟨"user", "A"⟩, ⟨"assistant", "B"⟩] "P" =
      .ok [⟨"user", "A..."⟩, ⟨"assistant", "B..."⟩]
    ∧ fit_to_token_limit tcEx [⟨"user", "A..."⟩, ⟨"assistant", "B..."⟩] "P" =
      .ok [⟨"user", "A......"⟩, ⟨"assistant", "B..."⟩]
    ∧ ([⟨"user", "A......"⟩, ⟨"assistant", "B..."⟩] : List Message) ≠
        [⟨"user", "A..."⟩, ⟨"assistant", "B..."⟩] :=
  ⟨fit_tcEx_first, fit_tcEx_second, by decide⟩

/-- Claim C10 (confirmed): a successful `fit_to_token_limit` run implies
`available ≥ 500`, hence `int(available * 3.5) ≥ 1750 > 50` — the branch
that drops the boundary message outright is unreachable — and a non-empty
input yields a non-empty output whose newest message is the input's newest,
at worst truncated. -/
theorem c10_nonempty (tc : String → ℚ) (messages : List Message)
    (system_prompt : String) (out : List Message)
    (h : fit_to_token_limit tc messages system_prompt = .ok out)
    (hne : messages ≠ []) :
    500 ≤ availableTokens tc system_prompt
    ∧ (1750 : ℤ) ≤ ⌊availableTokens tc system_prompt * (3.5 : ℚ)⌋
    ∧ out ≠ []
    ∧ ∃ m m', messages.getLast? = some m ∧ out.getLast? = some m' ∧
        eqOrTrunc (availableTokens tc system_prompt) m m' := by
  obtain ⟨h500, hout⟩ := fit_eq_ok tc messages system_prompt out h
  have hfl : (1750 : ℤ) ≤ ⌊availableTokens tc system_prompt * (3.5 : ℚ)⌋ :=
    floor_35_ge _ h500
  have h2 : (⌊availableTokens tc system_prompt * (3.5 : ℚ)⌋ : ℤ) > 50 := by linarith
  cases hrev : messages.reverse with
  | nil => exact absurd (List.reverse_eq_nil_iff.mp hrev) hne
  | cons m rest =>
    obtain ⟨m', r, hr, hrel⟩ := fitLoop_head tc _ m rest 0 h2
    refine ⟨h500, hfl, ?_, m, m', ?_, ?_, hrel⟩
    · rw [hout, hrev, hr]
      simp
    · rw [List.getLast?_eq_head?_reverse, hrev]
      rfl
    · rw [hout, hrev, hr, List.getLast?_eq_head?_reverse, List.reverse_reverse]
      rfl

/-- Witness for `c10_nonempty`. -/
theorem c10_nonempty_witness :
    500 ≤ availableTokens tcZero ""
    ∧ (1750 : ℤ) ≤ ⌊availableTokens tcZero "" * (3.5 : ℚ)⌋
    ∧ ([⟨"user", "hey"⟩] : List Message) ≠ []
    ∧ ∃ m m', ([⟨"user", "hey"⟩] : List Message).getLast? = some m ∧
        ([⟨"user", "hey"⟩] : List Message).getLast? = some m' ∧
        eqOrTrunc (availableTokens tcZero "") m m' :=
  c10_nonempty tcZero [⟨"user", "hey"⟩] "" [⟨"user", "hey"⟩]
    (fit_tcZero_eval _) (by simp)

/-! ## Claim C4: turn validation -/

/-- A strictly alternating list has no adjacent same-role pair. -/
theorem hasConsecutiveSameRole_eq_false :
    ∀ l : List Message, l.Chain' (fun a b => a.role ≠ b.role) →
      hasConsecutiveSameRole l = false
  | [], _ => rfl
  | [_], _ => rfl
  | a :: b :: rest, h => by
    rw [List.chain'_cons] at h
    show (a.role == b.role || hasConsecutiveSameRole (b :: rest)) = false
    rw [hasConsecutiveSameRole_eq_false (b :: rest) h.2]
    simp [h.1]

/-- Claim C4 (confirmed): the `/chat` validation, run on the cleaned message
list, checks three rules in order with the first violation winning, each
with a distinct 400 error: empty history; two adjacent messages sharing a
role; final message's role not `"user"`; and it accepts every non-empty
strictly alternating list ending with a user-role message. -/
theorem c4_validate_turns :
    validateTurns [] = .error (400, "Empty history")
    ∧ (∀ l : List Message, l ≠ [] → hasConsecutiveSameRole l = true →
        validateTurns l = .error (400, "Wait for patient reply"))
    ∧ (∀ (l : List Message) (m : Message), hasConsecutiveSameRole l = false →
        l.getLast? = some m → m.role ≠ "user" →
        validateTurns l = .error (400, "Therapist must speak last"))
    ∧ (∀ (l : List Message) (m : Message),
        l.Chain' (fun a b => a.role ≠ b.role) → l.getLast? = some m →
        m.role = "user" → validateTurns l = .ok ())
    ∧ (∀ history : List Message,
        chatValidate history = validateTurns (cleanMessages history)) := by
  refine ⟨rfl, ?_, ?_, ?_, fun _ => rfl⟩
  · intro l hne hdup
    rw [validateTurns, if_neg (by simp [hne]), if_pos hdup]
  · intro l m hdup hlast hrole
    have hne : l ≠ [] := by
      intro h
      rw [h] at hlast
      cases hlast
    have hl : lastRoleNotUser l = true := by
      rw [lastRoleNotUser, hlast]
      simpa using hrole
    rw [validateTurns, if_neg (by simp [hne]), if_neg (by simp [hdup]), if_pos hl]
  · intro l m halt hlast hrole
    have hne : l ≠ [] := by
      intro h
      rw [h] at hlast
      cases hlast
    have hdup := hasConsecutiveSameRole_eq_false l halt
    have hl : lastRoleNotUser l = false := by
      rw [lastRoleNotUser, hlast]
      simpa using hrole
    rw [validateTurns, if_neg (by simp [hne]), if_neg (by simp [hdup]),
      if_neg (by simp [hl])]

/-- Witness for `c4_validate_turns` at the spec's four example histories. -/
theorem c4_validate_turns_witness :
    validateTurns [] = .error (400, "Empty history")
    ∧ validateTurns [⟨"user", "hi"⟩, ⟨"user", "there"⟩] =
        .error (400, "Wait for patient reply")
    ∧ validateTurns [⟨"user", "hi"⟩, ⟨"assistant", "hey"⟩] =
        .error (400, "Therapist must speak last")
    ∧ validateTurns [⟨"assistant", "hi"⟩, ⟨"user", "hello"⟩] = .ok ()
    ∧ chatValidate [⟨"user", "  hi "⟩, ⟨"assistant", " "⟩] =
        validateTurns (cleanMessages [⟨"user", "  hi "⟩, ⟨"assistant", " "⟩]) :=
  ⟨c4_validate_turns.1,
   c4_validate_turns.2.1 _ (by decide) (by decide),
   c4_validate_turns.2.2.1 _ ⟨"assistant", "hey"⟩ (by decide) rfl (by decide),
   c4_validate_turns.2.2.2.1 _ ⟨"user", "hello"⟩
      (by rw [List.chain'_cons]; exact ⟨by decide, List.chain'_singleton _⟩) rfl rfl,
   c4_validate_turns.2.2.2.2 _⟩

/-! ## Claim C6: session round-trip -/

/-- Unfolding `verify_session` when the token is present in the store. -/
theorem verify_session_found (st : SessionStore) (now : ℚ) (tok e : String) (ca : ℚ)
    (h : tok ≠ "") (hst : st tok = some ⟨e, ca⟩) :
    verify_session st now (some tok) =
      if now - ca > 86400 then (none, storeDel st tok) else (some e, st) := by
  rw [verify_session, if_neg h, hst]

/-- Unfolding `verify_session` when the token is absent. -/
theorem verify_session_absent (st : SessionStore) (now : ℚ) (tok : String)
    (h : tok ≠ "") (hst : st tok = none) :
    verify_session st now (some tok) = (none, st) := by
  rw [verify_session, if_neg h, hst]

/-- Claim C6 (confirmed): on the in-process backend, a token created for a
subject verifies to that subject while strictly less than 86400 seconds
(24 h) have elapsed; verifies to `none` once more than 86400 seconds have
elapsed; and verifies to `none` at *any* time after `logout` deleted the
token. -/
theorem c6_session_roundtrip (st : SessionStore) (email session_token : String)
    (now now' : ℚ) (htok : session_token ≠ "") :
    (now' - now < 86400 →
      (verify_session (create_session st email session_token now).2 now'
        (some session_token)).1 = some email)
    ∧ (now' - now > 86400 →
      (verify_session (create_session st email session_token now).2 now'
        (some session_token)).1 = none)
    ∧ (∀ nowAfter : ℚ,
      (verify_session (logout (create_session st email session_token now).2
        (some session_token)) nowAfter (some session_token)).1 = none) := by
  have hget : (create_session st email session_token now).2 session_token =
      some ⟨email, now⟩ := by
    simp [create_session, storeSet]
  refine ⟨?_, ?_, ?_⟩
  · intro hlt
    rw [verify_session_found _ _ _ _ _ htok hget]
    rw [if_neg (by push_neg; linarith)]
  · intro hgt
    rw [verify_session_found _ _ _ _ _ htok hget]
    rw [if_pos (by linarith)]
  · intro nowAfter
    have hdel : logout (create_session st email session_token now).2
        (some session_token) session_token = none := by
      rw [logout]
      rw [if_pos (by rw [hget]; rfl)]
      simp [storeDel]
    rw [verify_session_absent _ _ _ htok hdel]

/-- Witness for `c6_session_roundtrip`: fresh store, token `"t"`, creation
at time 0, lookups at 100 (valid), 100000 (expired), and 50 after logout. -/
theorem c6_session_roundtrip_witness :
    (verify_session (create_session (fun _ => none) "a@b.com" "t" 0).2 100
      (some "t")).1 = some "a@b.com"
    ∧ (verify_session (create_session (fun _ => none) "a@b.com" "t" 0).2 100000
      (some "t")).1 = none
    ∧ (verify_session (logout (create_session (fun _ => none) "a@b.com" "t" 0).2
      (some "t")) 50 (some "t")).1 = none :=
  ⟨(c6_session_roundtrip (fun _ => none) "a@b.com" "t" 0 100 (by decide)).1
      (by norm_num),
   (c6_session_roundtrip (fun _ => none) "a@b.com" "t" 0 100000 (by decide)).2.1
      (by norm_num),
   (c6_session_roundtrip (fun _ => none) "a@b.com" "t" 0 0 (by decide)).2.2 50⟩

/-! ## Claim C7: the token-count fallback -/

/-- Claim C7 (code bug): with the tokenizer unavailable, `count_tokens "hi")`
returns `1 * 1.3 = 13/10` — a non-integer, not the `ceil(1 * 1.3) = 2` the
spec (and the function's own `-> int` annotation) call for.  The value is
still nonnegative and the fallback is total (it cannot raise). -/
theorem c7_count_tokens_fallback_not_integer :
    count_tokens none "hi" = 13 / 10
    ∧ (¬ ∃ n : ℤ, count_tokens none "hi" = (n : ℚ))
    ∧ count_tokens none "hi" ≠ 2
    ∧ 0 ≤ count_tokens none "hi" := by
  have hval : count_tokens none "hi" = 13 / 10 := by
    have hsplit : pySplit "hi" = ["hi"] := by decide
    rw [count_tokens, count_tokens_fallback, hsplit]
    norm_num
  refine ⟨hval, ?_, ?_, ?_⟩
  · rintro ⟨n, hn⟩
    rw [hval] at hn
    have h1 : (1 : ℚ) < (n : ℚ) := by rw [← hn]; norm_num
    have h2 : (n : ℚ) < 2 := by rw [← hn]; norm_num
    have h1' : (1 : ℤ) < n := by exact_mod_cast h1
    have h2' : n < 2 := by exact_mod_cast h2
    omega
  · rw [hval]; norm_num
  · rw [hval]; norm_num

/-! ## Claim C8: error classification of the model invoker -/

/-- Claim C8 (confirmed): an absent client fails fast with the not-ready
error for every outcome (the call is never attempted); with a client
present the classification is: `ThrottlingException` ↦ the distinct 429
rate-limit error — and nothing else maps to 429 — every other provider
error ↦ `500 "Bedrock error: <code>"`, any other exception ↦
`500 "Call failed: <msg>"`; so every failure is the 429 rate-limit kind or
a 500 kind. -/
theorem c8_error_classification :
    (∀ o : BedrockOutcome,
      invoke_bedrock_claude none o = .error (500, "Bedrock not ready"))
    ∧ (∀ o : BedrockOutcome,
      invoke_bedrock_claude (some ()) o = invoke_bedrock_sync o)
    ∧ invoke_bedrock_sync (.clientError "ThrottlingException") =
        .error (429, "Rate limit. Wait 10s.")
    ∧ (∀ code : String, code ≠ "ThrottlingException" →
      invoke_bedrock_sync (.clientError code) =
        .error (500, "Bedrock error: " ++ code))
    ∧ (∀ msg : String,
      invoke_bedrock_sync (.exn msg) = .error (500, "Call failed: " ++ msg))
    ∧ (∀ (o : BedrockOutcome) (e : HErr), invoke_bedrock_sync o = .error e →
      (e.1 = 429 ∧ o = .clientError "ThrottlingException") ∨ e.1 = 500) := by
  refine ⟨fun _ => rfl, fun _ => rfl, rfl, ?_, fun _ => rfl, ?_⟩
  · intro code hcode
    rw [invoke_bedrock_sync, if_neg hcode]
  · intro o e he
    cases o with
    | ok content =>
      cases content with
      | nil =>
        rw [invoke_bedrock_sync] at he
        cases he
        exact Or.inr rfl
      | cons b rest =>
        rw [invoke_bedrock_sync] at he
        by_cases hb : b.type = "text"
        · rw [if_pos hb] at he
          cases he
        · rw [if_neg hb] at he
          cases he
          exact Or.inr rfl
    | clientError code =>
      rw [invoke_bedrock_sync] at he
      by_cases hc : code = "ThrottlingException"
      · rw [if_pos hc] at he
        cases he
        exact Or.inl ⟨rfl, by rw [hc]⟩
      · rw [if_neg hc] at he
        cases he
        exact Or.inr rfl
    | exn msg =>
      rw [invoke_bedrock_sync] at he
      cases he
      exact Or.inr rfl

/-- Witness for `c8_error_classification`. -/
theorem c8_error_classification_witness :
    invoke_bedrock_claude none (.clientError "ThrottlingException") =
      .error (500, "Bedrock not ready")
    ∧ invoke_bedrock_sync (.clientError "ValidationException") =
      .error (500, "Bedrock error: " ++ "ValidationException")
    ∧ invoke_bedrock_sync (.exn "boom") = .error (500, "Call failed: " ++ "boom") :=
  ⟨c8_error_classification.1 _,
   c8_error_classification.2.2.2.1 "ValidationException" (by decide),
   c8_error_classification.2.2.2.2.1 "boom"⟩

/-! ## Lemmas about the retry loop of `generate_report` -/

theorem range_three : List.range max_retries = [0, 1, 2] := rfl

/-- One attempt succeeding: `break` with the reply, no wait. -/
theorem retry_cons_ok (call : Nat → Except HErr String) (attempt : Nat)
    (rest : List Nat) (d : Nat) (text : String) (h : call attempt = .ok text) :
    retryAttempts call (attempt :: rest) d = (some (.ok text), []) := by
  rw [retryAttempts, h]

/-- One attempt rate-limited with attempts left: wait `d` seconds, double
the delay and continue. -/
theorem retry_cons_err_retry (call : Nat → Except HErr String) (attempt : Nat)
    (rest : List Nat) (d : Nat) (e : HErr) (h : call attempt = .error e)
    (hc : e.1 = 429 ∧ attempt < max_retries - 1) :
    retryAttempts call (attempt :: rest) d =
      ((retryAttempts call rest (d * 2)).1,
        d :: (retryAttempts call rest (d * 2)).2) := by
  rw [retryAttempts, h]
  dsimp only
  rw [if_pos hc]

/-- One attempt failing non-retryably (or with no attempts left): the
exception is re-`raise`d. -/
theorem retry_cons_err_raise (call : Nat → Except HErr String) (attempt : Nat)
    (rest : List Nat) (d : Nat) (e : HErr) (h : call attempt = .error e)
    (hc : ¬ (e.1 = 429 ∧ attempt < max_retries - 1)) :
    retryAttempts call (attempt :: rest) d = (some (.error e), []) := by
  rw [retryAttempts, h]
  dsimp only
  rw [if_neg hc]

/-- First attempt succeeds with a non-empty reply. -/
theorem analyze_ok_first (call : Nat → Except HErr String) (t p text : String)
    (h : call 0 = .ok text) (hne : text ≠ "") :
    analyzeUtterance call t p = (⟨t, p, text, needsFlag text⟩, []) := by
  rw [analyzeUtterance, range_three, retry_cons_ok call 0 [1, 2] 1 text h]
  simp [hne]

/-- First attempt rate-limited, second succeeds non-empty: one 1-second
wait. -/
theorem analyze_ok_second (call : Nat → Except HErr String) (t p : String)
    (e : HErr) (text : String) (h0 : call 0 = .error e) (h0r : e.1 = 429)
    (h1 : call 1 = .ok text) (hne : text ≠ "") :
    analyzeUtterance call t p = (⟨t, p, text, needsFlag text⟩, [1]) := by
  rw [analyzeUtterance, range_three,
    retry_cons_err_retry call 0 [1, 2] 1 e h0 ⟨h0r, by decide⟩,
    retry_cons_ok call 1 [2] (1 * 2) text h1]
  simp [hne]

/-- First two attempts rate-limited, third succeeds non-empty: waits of 1
then 2 seconds. -/
theorem analyze_ok_third (call : Nat → Except HErr String) (t p : String)
    (e₀ e₁ : HErr) (text : String) (h0 : call 0 = .error e₀) (h0r : e₀.1 = 429)
    (h1 : call 1 = .error e₁) (h1r : e₁.1 = 429) (h2 : call 2 = .ok text)
    (hne : text ≠ "") :
    analyzeUtterance call t p = (⟨t, p, text, needsFlag text⟩, [1, 2]) := by
  rw [analyzeUtterance, range_three,
    retry_cons_err_retry call 0 [1, 2] 1 e₀ h0 ⟨h0r, by decide⟩,
    retry_cons_err_retry call 1 [2] (1 * 2) e₁ h1 ⟨h1r, by decide⟩,
    retry_cons_ok call 2 [] (1 * 2 * 2) text h2]
  simp [hne]

/-- First attempt fails with a non-429 error: no retry, fallback record. -/
theorem analyze_fail_first (call : Nat → Except HErr String) (t p : String)
    (e : HErr) (h0 : call 0 = .error e) (hne : e.1 ≠ 429) :
    analyzeUtterance call t p =
      (⟨t, p, fallbackText (errStr e), false⟩, []) := by
  rw [analyzeUtterance, range_three,
    retry_cons_err_raise call 0 [1, 2] 1 e h0 (by simp [hne])]

/-- All three attempts fail, the first two rate-limited: waits of 1 then 2
seconds, then the last error surfaces as a fallback record. -/
theorem analyze_exhausted (call : Nat → Except HErr String) (t p : String)
    (e₀ e₁ e₂ : HErr) (h0 : call 0 = .error e₀) (h0r : e₀.1 = 429)
    (h1 : call 1 = .error e₁) (h1r : e₁.1 = 429) (h2 : call 2 = .error e₂) :
    analyzeUtterance call t p =
      (⟨t, p, fallbackText (errStr e₂), false⟩, [1, 2]) := by
  rw [analyzeUtterance, range_three,
    retry_cons_err_retry call 0 [1, 2] 1 e₀ h0 ⟨h0r, by decide⟩,
    retry_cons_err_retry call 1 [2] (1 * 2) e₁ h1 ⟨h1r, by decide⟩,
    retry_cons_err_raise call 2 [] (1 * 2 * 2) e₂ h2 (by simp [max_retries])]

/-- A *successful but empty* reply falls into the `if improvement:` else
branch: `raise Exception("Failed after all retries")`, hence a fallback
record — the successful result is discarded. -/
theorem analyze_empty_reply (call : Nat → Except HErr String) (t p : String)
    (e : HErr) (h0 : call 0 = .error e) (h0r : e.1 = 429) (h1 : call 1 = .ok "") :
    analyzeUtterance call t p =
      (⟨t, p, fallbackText "Failed after all retries", false⟩, [1]) := by
  rw [analyzeUtterance, range_three,
    retry_cons_err_retry call 0 [1, 2] 1 e h0 ⟨h0r, by decide⟩,
    retry_cons_ok call 1 [2] (1 * 2) "" h1]
  simp

/-! ## Lemmas about the bulk-analysis loop -/

theorem genLoop_length (invoke : Nat → Nat → Except HErr String)
    (chat : List Message) :
    ∀ pl : List (Nat × Message), (genLoop invoke chat pl).length =
      (pl.filter (fun p => p.2.role == "user")).length := by
  intro pl
  induction pl with
  | nil => rfl
  | cons p rest ih =>
    obtain ⟨i, msg⟩ := p
    by_cases hm : msg.role = "user"
    · rw [genLoop, if_pos hm]
      simp [List.filter_cons, hm, ih]
    · rw [genLoop, if_neg hm]
      simp [List.filter_cons, hm, ih]

theorem enumFrom_filter_length (q : Message → Bool) :
    ∀ (l : List Message) (n : Nat),
      ((l.enumFrom n).filter (fun p => q p.2)).length = (l.filter q).length := by
  intro l
  induction l with
  | nil => intro n; rfl
  | cons m rest ih =>
    intro n
    rw [List.enumFrom]
    by_cases hq : q m <;> simp [List.filter_cons, hq, ih]

theorem genLoop_mem (invoke : Nat → Nat → Except HErr String)
    (chat : List Message) :
    ∀ (pl : List (Nat × Message)) (i : Nat) (msg : Message),
      (i, msg) ∈ pl → msg.role = "user" →
      (analyzeUtterance (invoke i) msg.content (patientResponse chat i)).1 ∈
        genLoop invoke chat pl := by
  intro pl
  induction pl with
  | nil => intro i msg h; cases h
  | cons p rest ih =>
    intro i msg hmem hrole
    obtain ⟨j, m'⟩ := p
    rcases List.mem_cons.mp hmem with heq | htail
    · obtain ⟨h1, h2⟩ := Prod.mk.injEq .. ▸ heq
      subst h1
      subst h2
      rw [genLoop, if_pos hrole]
      exact List.mem_cons_self _ _
    · rw [genLoop]
      by_cases hm : m'.role = "user"
      · rw [if_pos hm]
        exact List.mem_cons_of_mem _ (ih i msg htail hrole)
      · rw [if_neg hm]
        exact ih i msg htail hrole

theorem mem_enum_of_get? (l : List Message) (i : Nat) (m : Message)
    (h : l.get? i = some m) : (i, m) ∈ l.enum := by
  have h1 : l.enum.get? i = some (i, m) := by
    rw [List.get?_eq_getElem?, List.getElem?_enum]
    rw [List.get?_eq_getElem?] at h
    rw [h]
    rfl
  exact List.get?_mem h1

/-! ## Claim C2: per-utterance retry policy -/

/-- Claim C2 (amended): per analysed utterance, a 429 error is retried after
waiting `retry_delay` seconds with the delay doubling (1 s, then 2 s), up
to 3 attempts in total; a success on a later attempt yields that successful
result *provided the reply text is non-empty* (a successful empty reply is
treated like a failure — `if improvement:` — and surfaced as a fallback,
see `c2_retry_policy_counterexample`); an error other than a rate limit is
not retried, and in every permanent-failure case a degraded fallback record
with `needs_improvement = false` is surfaced instead of the batch
failing. -/
theorem c2_retry_policy (call : Nat → Except HErr String) (tmsg presp : String) :
    (∀ text, call 0 = .ok text → text ≠ "" →
      analyzeUtterance call tmsg presp = (⟨tmsg, presp, text, needsFlag text⟩, []))
    ∧ (∀ e text, call 0 = .error e → e.1 = 429 → call 1 = .ok text → text ≠ "" →
      analyzeUtterance call tmsg presp = (⟨tmsg, presp, text, needsFlag text⟩, [1]))
    ∧ (∀ e₀ e₁ text, call 0 = .error e₀ → e₀.1 = 429 →
        call 1 = .error e₁ → e₁.1 = 429 → call 2 = .ok text → text ≠ "" →
      analyzeUtterance call tmsg presp = (⟨tmsg, presp, text, needsFlag text⟩, [1, 2]))
    ∧ (∀ e, call 0 = .error e → e.1 ≠ 429 →
      analyzeUtterance call tmsg presp =
        (⟨tmsg, presp, fallbackText (errStr e), false⟩, []))
    ∧ (∀ e₀ e₁ e₂, call 0 = .error e₀ → e₀.1 = 429 →
        call 1 = .error e₁ → e₁.1 = 429 → call 2 = .error e₂ →
      analyzeUtterance call tmsg presp =
        (⟨tmsg, presp, fallbackText (errStr e₂), false⟩, [1, 2])) := by
  refine ⟨?_, ?_, ?_, ?_, ?_⟩
  · intro text h hne
    exact analyze_ok_first call tmsg presp text h hne
  · intro e text h0 h0r h1 hne
    exact analyze_ok_second call tmsg presp e text h0 h0r h1 hne
  · intro e₀ e₁ text h0 h0r h1 h1r h2 hne
    exact analyze_ok_third call tmsg presp e₀ e₁ text h0 h0r h1 h1r h2 hne
  · intro e h0 hne
    exact analyze_fail_first call tmsg presp e h0 hne
  · intro e₀ e₁ e₂ h0 h0r h1 h1r h2
    exact analyze_exhausted call tmsg presp e₀ e₁ e₂ h0 h0r h1 h1r h2

/-- Oracle for the C2 witness: rate-limited once, then a non-empty
success. -/
def c2wit : Nat → Except HErr String := fun n =>
  if n = 0 then .error (429, "Rate limit. Wait 10s.") else .ok "STATUS: GOOD"

/-- Witness for `c2_retry_policy`: one rate-limited attempt, then the
successful reply is returned, having waited 1 second. -/
theorem c2_retry_policy_witness :
    analyzeUtterance c2wit "How do you feel?" "Okay." =
      (⟨"How do you feel?", "Okay.", "STATUS: GOOD", false⟩, [1]) := by
  have h := (c2_retry_policy c2wit "How do you feel?" "Okay.").2.1
    (429, "Rate limit. Wait 10s.") "STATUS: GOOD" rfl rfl rfl (by decide)
  rw [show needsFlag "STATUS: GOOD" = false from by decide] at h
  exact h

/-- Oracle for the C2 counterexample: rate-limited once, then a
*successful empty* reply. -/
def c2cex : Nat → Except HErr String := fun n =>
  if n = 0 then .error (429, "Rate limit. Wait 10s.") else .ok ""

/-- Claim C2 counterexample: the second attempt succeeds (with reply `""`),
but the surfaced record carries the generic fallback text, not that
successful result — refuting "a success on a later attempt yields that
successful result" as universally stated. -/
theorem c2_retry_policy_counterexample :
    c2cex 0 = .error (429, "Rate limit. Wait 10s.")
    ∧ c2cex 1 = .ok ""
    ∧ analyzeUtterance c2cex "T" "Pt" =
        (⟨"T", "Pt", fallbackText "Failed after all retries", false⟩, [1])
    ∧ fallbackText "Failed after all retries" ≠ "" :=
  ⟨rfl, rfl,
   analyze_empty_reply c2cex "T" "Pt" (429, "Rate limit. Wait 10s.") rfl rfl rfl,
   by decide⟩

/-! ## Claim C5: bulk analysis isolates failures -/

/-- Claim C5 (confirmed): bulk analysis produces exactly one record per
user-role utterance; every user-role utterance's record (computed
independently from its own oracle) is in the result; and when an
utterance's call fails non-retryably, or all three attempts fail with the
first two rate-limited, the result still contains a fallback record for it
with `needs_improvement = false` — sibling utterances are unaffected. -/
theorem c5_bulk_isolation (invoke : Nat → Nat → Except HErr String)
    (chat : List Message) :
    (generateImprovements invoke chat).length =
        (chat.filter (fun m => m.role == "user")).length
    ∧ (∀ i msg, chat.get? i = some msg → msg.role = "user" →
        (analyzeUtterance (invoke i) msg.content (patientResponse chat i)).1 ∈
          generateImprovements invoke chat)
    ∧ (∀ i msg e, chat.get? i = some msg → msg.role = "user" →
        invoke i 0 = .error e → e.1 ≠ 429 →
        (⟨msg.content, patientResponse chat i, fallbackText (errStr e), false⟩ :
          ImprovementRecord) ∈ generateImprovements invoke chat)
    ∧ (∀ i msg e₀ e₁ e₂, chat.get? i = some msg → msg.role = "user" →
        invoke i 0 = .error e₀ → e₀.1 = 429 →
        invoke i 1 = .error e₁ → e₁.1 = 429 → invoke i 2 = .error e₂ →
        (⟨msg.content, patientResponse chat i, fallbackText (errStr e₂), false⟩ :
          ImprovementRecord) ∈ generateImprovements invoke chat) := by
  refine ⟨?_, ?_, ?_, ?_⟩
  · rw [generateImprovements, genLoop_length]
    exact enumFrom_filter_length (fun m => m.role == "user") chat 0
  · intro i msg hget hrole
    exact genLoop_mem invoke chat chat.enum i msg (mem_enum_of_get? chat i msg hget) hrole
  · intro i msg e hget hrole herr hne
    have hmem := genLoop_mem invoke chat chat.enum i msg
      (mem_enum_of_get? chat i msg hget) hrole
    rwa [analyze_fail_first (invoke i) msg.content (patientResponse chat i) e herr hne]
      at hmem
  · intro i msg e₀ e₁ e₂ hget hrole h0 h0r h1 h1r h2
    have hmem := genLoop_mem invoke chat chat.enum i msg
      (mem_enum_of_get? chat i msg hget) hrole
    rwa [analyze_exhausted (invoke i) msg.content (patientResponse chat i) e₀ e₁ e₂
        h0 h0r h1 h1r h2] at hmem

/-- Five independent therapist utterances for the C5 witness. -/
def chat5 : List Message :=
  [⟨"user", "m1"⟩, ⟨"user", "m2"⟩, ⟨"user", "m3"⟩, ⟨"user", "m4"⟩, ⟨"user", "m5"⟩]

/-- Oracle for the C5 witness: item 3 (index 2) always raises a
non-rate-limit error; every other item succeeds. -/
def invoke5 : Nat → Nat → Except HErr String := fun i _ =>
  if i = 2 then .error (500, "Bedrock error: ValidationException")
  else .ok "STATUS: GOOD"

/-- Witness for `c5_bulk_isolation`: 5 utterances with item 3 permanently
failing still yield 5 records, including item 3's fallback record with
`needs_improvement = false`. -/
theorem c5_bulk_isolation_witness :
    (generateImprovements invoke5 chat5).length = 5
    ∧ (⟨"m3", "", fallbackText (errStr (500, "Bedrock error: ValidationException")),
        false⟩ : ImprovementRecord) ∈ generateImprovements invoke5 chat5 := by
  constructor
  · rw [(c5_bulk_isolation invoke5 chat5).1]
    decide
  · have h := (c5_bulk_isolation invoke5 chat5).2.2.1 2 ⟨"user", "m3"⟩
      (500, "Bedrock error: ValidationException") rfl rfl rfl (by decide)
    rwa [show patientResponse chat5 2 = "" from rfl] at h

end Psyclinic
